import Mathlib

/-!
Shallow embedding of the jetbrains marketplace crawler pipeline
(src/marketplace_crawler.py and src/data_processor.py) and proofs about it.

Crawler model: `JetBrainsMarketplaceCrawler.crawl` iterates page indices
0, 1, ..., max_pages - 1; for each page it calls `_make_request` (modelled
as `responses page`, which is `none` when the HTTP request or the JSON
decoding of the response failed, and `some records` otherwise), breaks on
a falsy response (`None` or the empty list), breaks again on an empty
list (the dead second check), accumulates the page length into the total,
and calls `_save_plugins records (page + 1)`, which swallows `IOError`
(modelled by `saveOk (page + 1) = false` meaning the write failed and was
merely logged).  `plugins_per_page` only enters the request URL through
`offset = page * plugins_per_page`, so responses are indexed by page.
-/

namespace Crawler

/-- Length of one fetched page; a failed request contributes nothing. -/
def pageLen {α : Type} (r : Option (List α)) : Nat :=
  match r with
  | none => 0
  | some l => l.length

/-- Embedding of the loop body of `crawl` (src/marketplace_crawler.py lines
105-136), starting at page index `page` with `rem` loop iterations left.
Returns the accumulated total together with the pages that were saved to
disk, as pairs of the 1-based file index and the page contents.  The
duplicated emptiness test mirrors the two consecutive `break` checks of the
source. -/
def crawlFrom {α : Type} (responses : Nat → Option (List α)) (saveOk : Nat → Bool) :
    Nat → Nat → Nat × List (Nat × List α)
  | _, 0 => (0, [])
  | page, Nat.succ rem =>
    match responses page with
    | none => (0, [])
    | some ps =>
      if ps.isEmpty then (0, [])
      else if ps.isEmpty then (0, [])
      else
        let rest := crawlFrom responses saveOk (page + 1) rem
        (ps.length + rest.1, (if saveOk (page + 1) then [(page + 1, ps)] else []) ++ rest.2)

/-- Variant of `crawlFrom` with the second emptiness check (the
`isinstance(plugins, list) and not plugins` branch) removed. -/
def crawlFromNoSnd {α : Type} (responses : Nat → Option (List α)) (saveOk : Nat → Bool) :
    Nat → Nat → Nat × List (Nat × List α)
  | _, 0 => (0, [])
  | page, Nat.succ rem =>
    match responses page with
    | none => (0, [])
    | some ps =>
      if ps.isEmpty then (0, [])
      else
        let rest := crawlFromNoSnd responses saveOk (page + 1) rem
        (ps.length + rest.1, (if saveOk (page + 1) then [(page + 1, ps)] else []) ++ rest.2)

/-- Embedding of `JetBrainsMarketplaceCrawler.crawl`: the returned total. -/
def crawl {α : Type} (responses : Nat → Option (List α)) (saveOk : Nat → Bool)
    (maxPages : Nat) : Nat :=
  (crawlFrom responses saveOk 0 maxPages).1

/-- Sum of the lengths of `k` consecutive pages starting at `page`. -/
def sumFrom {α : Type} (responses : Nat → Option (List α)) : Nat → Nat → Nat
  | _, 0 => 0
  | page, Nat.succ k => pageLen (responses page) + sumFrom responses (page + 1) k

end Crawler

/-!
Transformer model: `PluginDataProcessor.process_plugins`
(src/data_processor.py lines 40-94).  JSON values decoded by `json.load`
are modelled by `PyVal`; a snapshot file is `Option PyVal`, with `none`
standing for a file whose JSON decoding raised.  Python exceptions raised
by the embedded operations are modelled by `Except PyErr`.
-/

namespace Processor

/-- A decoded JSON value as Python represents it (floats do not occur in
the claims under study and are omitted). -/
inductive PyVal : Type where
  | null : PyVal
  | bool (b : Bool) : PyVal
  | int (n : Int) : PyVal
  | str (s : String) : PyVal
  | list (xs : List PyVal) : PyVal
  | dict (kvs : List (String × PyVal)) : PyVal

/-- The Python exceptions the embedded fragments can raise. -/
inductive PyErr : Type where
  | attributeError : PyErr
  | valueError : PyErr
  | typeError : PyErr
  | keyError : PyErr
deriving DecidableEq

/-- Python truthiness of a JSON value. -/
def pyTruthy : PyVal → Bool
  | .null => false
  | .bool b => b
  | .int n => decide (n ≠ 0)
  | .str s => !s.isEmpty
  | .list xs => !xs.isEmpty
  | .dict kvs => !kvs.isEmpty

/-- Association lookup in a Python dict (keys are unique in a real dict,
so first match is the match). -/
def pyLookup : List (String × PyVal) → String → Option PyVal
  | [], _ => none
  | (k, v) :: rest, key => if k = key then some v else pyLookup rest key

/-- Python `receiver.get(key, default)`: an `AttributeError` when the
receiver is not a dict (in particular when it is `None` or a list). -/
def pyGetD : PyVal → String → PyVal → Except PyErr PyVal
  | .dict kvs, key, dflt => .ok ((pyLookup kvs key).getD dflt)
  | _, _, _ => .error .attributeError

/-- Python iteration over a value: lists yield elements, strings yield
one-character strings, dicts yield their keys; anything else raises
`TypeError`. -/
def pyIter : PyVal → Except PyErr (List PyVal)
  | .list xs => .ok xs
  | .str s => .ok (s.toList.map (fun c => .str (String.mk [c])))
  | .dict kvs => .ok (kvs.map (fun kv => .str kv.1))
  | _ => .error .typeError

/-- Splitting a character list on every occurrence of the separator `c`;
the result always has one part more than there are separators. -/
def splitOnChar (c : Char) : List Char → List (List Char)
  | [] => [[]]
  | x :: xs =>
    if x = c then [] :: splitOnChar c xs
    else
      match splitOnChar c xs with
      | [] => [[x]]
      | h :: t => (x :: h) :: t

/-- Python `s.split(sep)` for a one-character separator `c`. -/
def pySplit (c : Char) (s : String) : List String :=
  (splitOnChar c s.toList).map String.mk

/-- Python `c in s` for a single character `c`. -/
def pyContainsChar (c : Char) (s : String) : Bool :=
  decide (c ∈ s.toList)

/-- The key a source path is looked up under first: the part before the
first separator (the whole path when there is no separator). -/
def headKey (jsonPath : String) : String :=
  match pySplit '_' jsonPath with
  | [] => jsonPath
  | h :: _ => h

/-- Embedding of the path-resolution step of `process_plugins`
(src/data_processor.py lines 61-65): a source path containing the
separator is split with `str.split`, the two parts are unpacked (a
`ValueError` when the split does not have exactly two parts), and two
`dict.get` lookups follow, defaulting to an empty dict and then the empty
string; a path without a separator is a single `dict.get` defaulting to
the empty string. -/
def resolvePath (plugin : PyVal) (jsonPath : String) : Except PyErr PyVal :=
  if pyContainsChar '_' jsonPath then
    match pySplit '_' jsonPath with
    | [parent, child] =>
      match pyGetD plugin parent (PyVal.dict []) with
      | .error e => .error e
      | .ok v => pyGetD v child (PyVal.str "")
    | _ => .error .valueError
  else
    pyGetD plugin jsonPath (PyVal.str "")

/-- Checking that every joined element is a string, in iteration order. -/
def asStrings : List PyVal → Except PyErr (List String)
  | [] => .ok []
  | PyVal.str s :: rest => (asStrings rest).map (fun l => s :: l)
  | _ :: _ => .error .typeError

/-- Python `",".join(value)`: joins an iterable of strings, a `TypeError`
when the value is not iterable or yields a non-string. -/
def pyJoin (v : PyVal) : Except PyErr String :=
  match pyIter v with
  | .error e => .error e
  | .ok elems =>
    match asStrings elems with
    | .error e => .error e
    | .ok strs => .ok (String.intercalate "," strs)

/-- Embedding of the `tags` special case of `process_plugins` (line 69):
`value = ",".join(value) if value else ""`. -/
def formatTags (v : PyVal) : Except PyErr PyVal :=
  if pyTruthy v then (pyJoin v).map PyVal.str else .ok (.str "")

/-- Embedding of the `date` special case of `process_plugins` (line 71):
`value = datetime.fromtimestamp(value / 1000).strftime("%Y-%m-%d") if value
else ""`.  The local-timezone epoch-milliseconds-to-date rendering is the
parameter `fmt`; a truthy non-numeric value makes the division raise
`TypeError` (`True`, the only truthy bool, counts as the number 1). -/
def formatDate (fmt : Int → String) (v : PyVal) : Except PyErr PyVal :=
  if pyTruthy v then
    match v with
    | .int n => .ok (.str (fmt n))
    | .bool _ => .ok (.str (fmt 1))
    | _ => .error .typeError
  else .ok (.str "")

/-- The per-field special handling of `process_plugins` (lines 67-71). -/
def applyField (fmt : Int → String) (fieldName : String) (v : PyVal) :
    Except PyErr PyVal :=
  if fieldName = "tags" then formatTags v
  else if fieldName = "date" then formatDate fmt v
  else .ok v

/-- The field map `self.fields` built in `PluginDataProcessor.__init__`
(src/data_processor.py lines 29-38), in insertion order. -/
def fieldsList : List (String × String) :=
  [("id", "id"), ("name", "name"), ("downloads", "downloads"),
   ("rating", "rating"), ("pricing", "pricingModel"),
   ("vendor", "vendor_name"), ("tags", "tags"), ("date", "cdate")]

/-- The output columns: `self.fields.keys()` in order. -/
def outCols : List String := fieldsList.map Prod.fst

/-- Building one CSV row dict from one raw plugin record, iterating a
field list in order (lines 58-74 of src/data_processor.py). -/
def buildRowAux (fmt : Int → String) (plugin : PyVal) :
    List (String × String) → Except PyErr (List (String × PyVal))
  | [] => .ok []
  | (fname, jpath) :: rest =>
    match resolvePath plugin jpath with
    | .error e => .error e
    | .ok v =>
      match applyField fmt fname v with
      | .error e => .error e
      | .ok v2 =>
        match buildRowAux fmt plugin rest with
        | .error e => .error e
        | .ok r => .ok ((fname, v2) :: r)

/-- Building one row over the full field map. -/
def buildRow (fmt : Int → String) (plugin : PyVal) :
    Except PyErr (List (String × PyVal)) :=
  buildRowAux fmt plugin fieldsList

/-- Sequencing a fallible map over a list, mirroring the Python loops that
build `processed_data` and the db rows one element at a time. -/
def mapExcept {β γ : Type} (f : β → Except PyErr γ) :
    List β → Except PyErr (List γ)
  | [] => .ok []
  | x :: xs =>
    match f x with
    | .error e => .error e
    | .ok y =>
      match mapExcept f xs with
      | .error e => .error e
      | .ok ys => .ok (y :: ys)

/-- Embedding of the snapshot-loading loop of `process_plugins` (lines
45-54): each file's decoded JSON (`none` when `json.load` raised) is asked
for its `plugins` key with default `[]` (`AttributeError` when the decoded
value is not a dict, e.g. a bare list), and the results are concatenated
with `all_plugins.extend` in file order.  Any exception is caught by the
surrounding `try` and aborts the load. -/
def loadAll : List (Option PyVal) → Except PyErr (List PyVal)
  | [] => .ok []
  | none :: _ => .error .valueError
  | some j :: rest =>
    match pyGetD j "plugins" (PyVal.list []) with
    | .error e => .error e
    | .ok pd =>
      match pyIter pd with
      | .error e => .error e
      | .ok elems =>
        match loadAll rest with
        | .error e => .error e
        | .ok tl => .ok (elems ++ tl)

/-- Python `row[key]` on a row dict: `KeyError` when absent. -/
def pyIndexRow (row : List (String × PyVal)) (k : String) : Except PyErr PyVal :=
  match pyLookup row k with
  | some v => .ok v
  | none => .error .keyError

/-- The observable outcome of one `process_plugins` run: the CSV file
written (header and rows), the rows committed to the sqlite table, and
whether an uncaught exception escaped the call. -/
structure ProcResult : Type where
  csv : Option (List String × List (List (String × PyVal)))
  db : Option (List (List PyVal))
  raised : Bool

/-- Embedding of `PluginDataProcessor.process_plugins` (lines 40-94).
`files` are the decoded snapshot files in directory-enumeration order
(`none` for a file whose JSON decoding raised); `csvOk` and `dbOk` say
whether the filesystem lets the CSV write and the sqlite
connect/create/insert/commit sequence succeed.  A load failure is caught
and logged and the function returns with no output; an exception while
building rows is uncaught; a CSV write failure is caught and logged and
the sqlite write still runs; a sqlite failure is uncaught (nothing is
committed) but the CSV file has already been written. -/
def processPlugins (fmt : Int → String) (files : List (Option PyVal))
    (csvOk dbOk : Bool) : ProcResult :=
  match loadAll files with
  | .error _ => ⟨none, none, false⟩
  | .ok allPlugins =>
    match mapExcept (buildRow fmt) allPlugins with
    | .error _ => ⟨none, none, true⟩
    | .ok rows =>
      let csvOut := if csvOk then some (outCols, rows) else none
      if dbOk then
        match mapExcept (fun r => mapExcept (pyIndexRow r) outCols) rows with
        | .error _ => ⟨csvOut, none, true⟩
        | .ok dbRows => ⟨csvOut, some dbRows, false⟩
      else ⟨csvOut, none, true⟩

/-- A constant stand-in for the local-timezone date rendering. -/
def fmt0 : Int → String := fun _ => ""

/-- A snapshot file holding a bare JSON list of one record, which is
exactly the shape `_save_plugins` writes with `json.dump(plugins, f)`. -/
def bareSnapshot : Option PyVal :=
  some (PyVal.list [PyVal.dict [("id", PyVal.int 1)]])

/-- A raw record whose `vendor` key is present and bound to `null`. -/
def vendorNullRecord : PyVal := PyVal.dict [("vendor", PyVal.null)]

/-- A raw record giving the two-separator path `a_b_c` a value under the
first-separator-only reading (`parent = a`, `child = b_c`). -/
def recordAB : PyVal := PyVal.dict [("a", PyVal.dict [("b_c", PyVal.str "v")])]

/-- The row produced from a record with no recognized fields. -/
def emptyRow : List (String × PyVal) :=
  [("id", .str ""), ("name", .str ""), ("downloads", .str ""),
   ("rating", .str ""), ("pricing", .str ""), ("vendor", .str ""),
   ("tags", .str ""), ("date", .str "")]

/-- A wrapper-shaped snapshot file holding one empty record. -/
def wrapOne : Option PyVal :=
  some (PyVal.dict [("plugins", PyVal.list [PyVal.dict []])])

/-- A raw record carrying only a `name`. -/
def recordX : PyVal := PyVal.dict [("name", PyVal.str "X")]

/-- Two snapshot files in the exact shape `_save_plugins` writes (bare
JSON lists), one record each. -/
def bareTwo : List (Option PyVal) :=
  [some (PyVal.list [PyVal.int 1]), some (PyVal.list [PyVal.int 2])]

/-- The sqlite row inserted for a record with no recognized fields. -/
def dbRow0 : List PyVal :=
  [.str "", .str "", .str "", .str "", .str "", .str "", .str "", .str ""]

/-- The row `process_plugins` builds from `recordX`. -/
def rowX : List (String × PyVal) :=
  [("id", .str ""), ("name", .str "X"), ("downloads", .str ""),
   ("rating", .str ""), ("pricing", .str ""), ("vendor", .str ""),
   ("tags", .str ""), ("date", .str "")]

end Processor

namespace Crawler

/-- Two nonempty pages, then a failed request. -/
def respTwoPages : Nat → Option (List Nat) := fun i =>
  if i = 0 then some [10, 20] else if i = 1 then some [30] else none

/-- One-record pages at indices 0 and 1, then a failed request. -/
def respSave : Nat → Option (List Nat) := fun i =>
  if i < 2 then some [7] else none

/-- A run in which writing snapshot file 1 raises an IOError. -/
def saveFail1 : Nat → Bool := fun p => decide (p ≠ 1)

end Crawler

/-!
Theorems.  Helper lemmas come first inside each namespace; the claim
theorems are marked with their claim id.
-/

namespace Crawler

/-- Helper: `sumFrom` is the sum of the page lengths over `List.range`. -/
theorem sumFrom_eq_range_sum {α : Type} (responses : Nat → Option (List α)) :
    ∀ k page, sumFrom responses page k =
      ((List.range k).map (fun i => pageLen (responses (page + i)))).sum := by
  intro k
  induction k with
  | zero => intro page; simp [sumFrom]
  | succ k ih =>
    intro page
    rw [List.range_succ_eq_map]
    simp only [List.map_cons, List.sum_cons, List.map_map]
    rw [sumFrom, ih (page + 1)]
    have hfun : ((fun i => pageLen (responses (page + i))) ∘ Nat.succ) =
        fun i => pageLen (responses (page + 1 + i)) := by
      funext i
      simp only [Function.comp_apply]
      congr 2
      omega
    rw [hfun]
    simp

/-- Helper: the accumulated total of the crawl loop, starting anywhere,
equals the sum of the page lengths strictly before the first stopping
page. -/
theorem crawlFrom_total_of_stop {α : Type} (responses : Nat → Option (List α))
    (saveOk : Nat → Bool) :
    ∀ k rem page, k ≤ rem →
      (∀ i, i < k → ∃ l, responses (page + i) = some l ∧ l ≠ []) →
      (k = rem ∨ responses (page + k) = none ∨ responses (page + k) = some []) →
      (crawlFrom responses saveOk page rem).1 = sumFrom responses page k := by
  intro k
  induction k with
  | zero =>
    intro rem page _ _ hstop
    rcases hstop with h | h | h
    · subst h
      simp [crawlFrom, sumFrom]
    · cases rem with
      | zero => simp [crawlFrom, sumFrom]
      | succ r =>
        rw [Nat.add_zero] at h
        simp [crawlFrom, sumFrom, h]
    · cases rem with
      | zero => simp [crawlFrom, sumFrom]
      | succ r =>
        rw [Nat.add_zero] at h
        simp [crawlFrom, sumFrom, h]
  | succ k ih =>
    intro rem page hk hbefore hstop
    obtain ⟨l, hl, hlne⟩ := hbefore 0 (Nat.succ_pos k)
    rw [Nat.add_zero] at hl
    cases rem with
    | zero => omega
    | succ r =>
      have hle : l.isEmpty = false := by
        cases l with
        | nil => exact absurd rfl hlne
        | cons a as => rfl
      have hrec : (crawlFrom responses saveOk (page + 1) r).1 =
          sumFrom responses (page + 1) k := by
        apply ih r (page + 1) (by omega)
        · intro i hi
          obtain ⟨l2, hl2, hl2ne⟩ := hbefore (i + 1) (by omega)
          refine ⟨l2, ?_, hl2ne⟩
          rw [show page + 1 + i = page + (i + 1) by omega]
          exact hl2
        · rcases hstop with h | h | h
          · left; omega
          · right; left
            rw [show page + 1 + k = page + (k + 1) by omega]
            exact h
          · right; right
            rw [show page + 1 + k = page + (k + 1) by omega]
            exact h
      have hstep : (crawlFrom responses saveOk page (r + 1)).1 =
          l.length + (crawlFrom responses saveOk (page + 1) r).1 := by
        simp [crawlFrom, hl, hle]
      rw [hstep, hrec, sumFrom]
      simp [pageLen, hl]

/-- Claim C2: for every sequence of per-page responses, `crawl` visits
pages 0, 1, ... in order, stops at the first page whose response is
absent or failed or empty (or after `maxPages` pages), and returns the
sum of the lengths of all pages strictly before that stopping point. -/
theorem crawl_total {α : Type} (responses : Nat → Option (List α))
    (saveOk : Nat → Bool) (maxPages k : Nat) (hk : k ≤ maxPages)
    (hbefore : ∀ i, i < k → ∃ l, responses i = some l ∧ l ≠ [])
    (hstop : k = maxPages ∨ responses k = none ∨ responses k = some []) :
    crawl responses saveOk maxPages =
      ((List.range k).map (fun i => pageLen (responses i))).sum := by
  have h := crawlFrom_total_of_stop responses saveOk k maxPages 0 hk
    (by simpa using hbefore) (by simpa using hstop)
  unfold crawl
  rw [h, sumFrom_eq_range_sum]
  simp

/-- Witness for C2: two pages of sizes 2 and 1, failure at page 2, with
`maxPages = 5`; the crawl returns 3 = 2 + 1. -/
theorem crawl_total_witness :
    crawl respTwoPages (fun _ => true) 5 =
      ((List.range 2).map (fun i => pageLen (respTwoPages i))).sum ∧
    crawl respTwoPages (fun _ => true) 5 = 3 := by
  constructor
  · apply crawl_total respTwoPages (fun _ => true) 5 2 (by omega)
    · intro i hi
      match i, hi with
      | 0, _ => exact ⟨[10, 20], rfl, by simp⟩
      | 1, _ => exact ⟨[30], rfl, by simp⟩
    · exact Or.inr (Or.inl rfl)
  · rfl

/-- Counterexample to claim C9: with one-record pages at indices 0 and 1
and a failing snapshot write for page file 1 (during loop iteration 0),
the crawl still fetches and counts the next page: it returns 2 and saves
page file 2, instead of terminating at the failed page with total 1. -/
theorem crawl_save_failure_continues_cex :
    crawlFrom respSave saveFail1 0 10 = (2, [(2, [7])]) := rfl

/-- Claim C9 (amended): request and decode failures are terminal, but a
snapshot-write failure is not: the outcome of the save attempts never
changes the crawl's control flow or its returned total, and only filters
which page files exist afterwards. -/
theorem crawl_save_failure_local {α : Type} (responses : Nat → Option (List α))
    (saveOk saveOk2 : Nat → Bool) :
    ∀ rem page,
      (crawlFrom responses saveOk page rem).1 =
        (crawlFrom responses saveOk2 page rem).1 ∧
      (crawlFrom responses saveOk page rem).2 =
        ((crawlFrom responses (fun _ => true) page rem).2).filter
          (fun pr => saveOk pr.1) := by
  intro rem
  induction rem with
  | zero => intro page; exact ⟨rfl, rfl⟩
  | succ r ih =>
    intro page
    simp only [crawlFrom]
    cases responses page with
    | none => exact ⟨rfl, rfl⟩
    | some ps =>
      by_cases h : ps.isEmpty
      · simp [h]
      · simp only [h]
        constructor
        · simp [(ih (page + 1)).1]
        · simp only [if_neg, List.filter_append, (ih (page + 1)).2]
          cases hs : saveOk (page + 1) <;> simp [hs]

/-- Claim C10: the second emptiness check in the crawl loop is dead code:
the crawl with that check removed is extensionally equal to the crawl as
written, both in the returned total and in the pages saved. -/
theorem crawl_second_check_dead {α : Type} (responses : Nat → Option (List α))
    (saveOk : Nat → Bool) :
    ∀ rem page,
      crawlFrom responses saveOk page rem = crawlFromNoSnd responses saveOk page rem := by
  intro rem
  induction rem with
  | zero => intro page; rfl
  | succ r ih =>
    intro page
    simp only [crawlFrom, crawlFromNoSnd]
    cases responses page with
    | none => rfl
    | some ps =>
      by_cases h : ps.isEmpty
      · simp [h]
      · simp [h, ih]

end Crawler

namespace Processor

/-- Helper: rebuilding a string from its character list is the identity. -/
theorem mk_toList (s : String) : String.mk s.toList = s := rfl

/-- Helper: splitting never produces an empty list of parts. -/
theorem splitOnChar_ne_nil (c : Char) : ∀ l : List Char, splitOnChar c l ≠ [] := by
  intro l
  cases l with
  | nil => simp [splitOnChar]
  | cons x xs =>
    simp only [splitOnChar]
    by_cases h : x = c
    · simp [h]
    · rw [if_neg h]
      cases splitOnChar c xs <;> simp

/-- Helper: a list without the separator is a single part. -/
theorem splitOnChar_of_not_mem (c : Char) :
    ∀ l : List Char, c ∉ l → splitOnChar c l = [l] := by
  intro l
  induction l with
  | nil => intro _; rfl
  | cons x xs ih =>
    intro h
    have hx : ¬x = c := fun he => h (he ▸ List.mem_cons_self x xs)
    have hxs : c ∉ xs := fun hm => h (List.mem_cons_of_mem x hm)
    simp only [splitOnChar]
    rw [if_neg hx, ih hxs]

/-- Helper: splitting peels off the part before the first separator. -/
theorem splitOnChar_append_first (c : Char) :
    ∀ l1 l2 : List Char, c ∉ l1 →
      splitOnChar c (l1 ++ c :: l2) = l1 :: splitOnChar c l2 := by
  intro l1
  induction l1 with
  | nil =>
    intro l2 _
    simp [splitOnChar]
  | cons x xs ih =>
    intro l2 h
    have hx : ¬x = c := fun he => h (he ▸ List.mem_cons_self x xs)
    have hxs : c ∉ xs := fun hm => h (List.mem_cons_of_mem x hm)
    show splitOnChar c (x :: (xs ++ c :: l2)) = (x :: xs) :: splitOnChar c l2
    simp only [splitOnChar]
    rw [if_neg hx, ih l2 hxs]

/-- Helper: a list containing the separator splits into at least two
parts. -/
theorem splitOnChar_mem_two (c : Char) :
    ∀ l : List Char, c ∈ l → ∃ a b t, splitOnChar c l = a :: b :: t := by
  intro l
  induction l with
  | nil => intro h; exact absurd h (List.not_mem_nil c)
  | cons x xs ih =>
    intro h
    by_cases hx : x = c
    · refine ⟨[], ?_⟩
      have hne := splitOnChar_ne_nil c xs
      cases hsp : splitOnChar c xs with
      | nil => exact absurd hsp hne
      | cons b t =>
        refine ⟨b, t, ?_⟩
        simp [splitOnChar, hx, hsp]
    · have hxs : c ∈ xs := by
        rcases List.mem_cons.mp h with h1 | h1
        · exact absurd h1.symm hx
        · exact h1
      obtain ⟨a, b, t, hsp⟩ := ih hxs
      refine ⟨x :: a, b, t, ?_⟩
      simp only [splitOnChar]
      rw [if_neg hx, hsp]

/-- Helper: resolving a path whose head key is absent from the record
either yields the empty string or raises the unpacking `ValueError`. -/
theorem resolvePath_of_head_absent (kvs : List (String × PyVal)) (jsonPath : String)
    (h : pyLookup kvs (headKey jsonPath) = none) :
    resolvePath (PyVal.dict kvs) jsonPath = .ok (.str "") ∨
    resolvePath (PyVal.dict kvs) jsonPath = .error .valueError := by
  unfold resolvePath
  by_cases hc : pyContainsChar '_' jsonPath = true
  · rw [if_pos hc]
    cases hsp : pySplit '_' jsonPath with
    | nil => right; rfl
    | cons p rest =>
      cases rest with
      | nil => right; rfl
      | cons q rest2 =>
        cases rest2 with
        | nil =>
          left
          have hp : headKey jsonPath = p := by
            unfold headKey
            rw [hsp]
          rw [hp] at h
          have hg : pyGetD (PyVal.dict kvs) p (PyVal.dict []) =
              Except.ok (PyVal.dict []) := by
            simp [pyGetD, h]
          show (match pyGetD (PyVal.dict kvs) p (PyVal.dict []) with
            | Except.error e => Except.error e
            | Except.ok v => pyGetD v q (PyVal.str "")) = Except.ok (PyVal.str "")
          rw [hg]
          rfl
        | cons r rest3 => right; rfl
  · rw [if_neg hc]
    have hnm : '_' ∉ jsonPath.toList := by
      intro hm
      exact hc (decide_eq_true hm)
    have hsp : pySplit '_' jsonPath = [jsonPath] := by
      unfold pySplit
      rw [splitOnChar_of_not_mem '_' jsonPath.toList hnm]
      simp [mk_toList]
    have hp : headKey jsonPath = jsonPath := by
      unfold headKey
      rw [hsp]
    rw [hp] at h
    left
    simp [pyGetD, h]

/-- Helper: the special per-field handling maps the empty string to the
empty string for every output column. -/
theorem applyField_empty (fmt : Int → String) (fname : String) :
    applyField fmt fname (.str "") = .ok (.str "") := by
  by_cases h1 : fname = "tags"
  · subst h1
    rfl
  · by_cases h2 : fname = "date"
    · subst h2
      rfl
    · unfold applyField
      rw [if_neg h1, if_neg h2]

/-- Helper: a successful row build yields exactly the field names of the
field list, in order. -/
theorem buildRowAux_keys (fmt : Int → String) (plugin : PyVal) :
    ∀ (flds : List (String × String)) (row : List (String × PyVal)),
      buildRowAux fmt plugin flds = .ok row →
      row.map Prod.fst = flds.map Prod.fst := by
  intro flds
  induction flds with
  | nil =>
    intro row h
    simp only [buildRowAux] at h
    cases h
    rfl
  | cons fld rest ih =>
    intro row h
    obtain ⟨fname, jpath⟩ := fld
    simp only [buildRowAux] at h
    split at h
    · cases h
    · split at h
      · cases h
      · split at h
        · cases h
        · rename_i r hr
          cases h
          simp [ih r hr]

/-- Helper: in a successful row build over a field list with distinct
output names, a field whose head key is absent from the source record
comes out as the empty string. -/
theorem buildRowAux_absent (fmt : Int → String) (kvs : List (String × PyVal)) :
    ∀ (flds : List (String × String)) (row : List (String × PyVal)),
      buildRowAux fmt (PyVal.dict kvs) flds = .ok row →
      (flds.map Prod.fst).Nodup →
      ∀ fname jpath, (fname, jpath) ∈ flds →
        pyLookup kvs (headKey jpath) = none →
        pyLookup row fname = some (PyVal.str "") := by
  intro flds
  induction flds with
  | nil =>
    intro row _ _ fname jpath hmem
    exact absurd hmem (List.not_mem_nil _)
  | cons fld rest ih =>
    intro row h hnd fname jpath hmem habs
    obtain ⟨g, q⟩ := fld
    simp only [buildRowAux] at h
    split at h
    · cases h
    · rename_i v hv
      split at h
      · cases h
      · rename_i v2 ha
        split at h
        · cases h
        · rename_i r hr
          cases h
          rcases List.mem_cons.mp hmem with h1 | h1
          · have hfg : fname = g := by
              cases h1
              rfl
            have hjq : jpath = q := by
              cases h1
              rfl
            subst hfg
            subst hjq
            have hv0 : v = PyVal.str "" := by
              rcases resolvePath_of_head_absent kvs jpath habs with h2 | h2
              · rw [hv] at h2
                cases h2
                rfl
              · rw [hv] at h2
                cases h2
            subst hv0
            have he := applyField_empty fmt fname
            rw [he] at ha
            cases ha
            simp [pyLookup]
          · have hgn : g ∉ rest.map Prod.fst := by
              simp only [List.map_cons, List.nodup_cons] at hnd
              exact hnd.1
            have hfn : fname ∈ rest.map Prod.fst :=
              List.mem_map_of_mem Prod.fst h1
            have hne : ¬g = fname := fun he2 => hgn (he2 ▸ hfn)
            have hnd2 : (rest.map Prod.fst).Nodup := by
              simp only [List.map_cons, List.nodup_cons] at hnd
              exact hnd.2
            simp only [pyLookup]
            rw [if_neg hne]
            exact ih r hr hnd2 fname jpath h1 habs

/-- Helper: a decode failure on any snapshot file makes the whole load
fail. -/
theorem loadAll_error_of_none :
    ∀ files : List (Option PyVal), none ∈ files → ∃ e, loadAll files = .error e := by
  intro files
  induction files with
  | nil => intro h; exact absurd h (List.not_mem_nil _)
  | cons f rest ih =>
    intro h
    cases f with
    | none => exact ⟨.valueError, rfl⟩
    | some j =>
      have hrest : none ∈ rest := by
        rcases List.mem_cons.mp h with h1 | h1
        · exact absurd h1 (by simp)
        · exact h1
      obtain ⟨e, he⟩ := ih hrest
      cases hg : pyGetD j "plugins" (PyVal.list []) with
      | error e2 =>
        refine ⟨e2, ?_⟩
        simp only [loadAll]
        rw [hg]
      | ok pd =>
        cases hi : pyIter pd with
        | error e2 =>
          refine ⟨e2, ?_⟩
          simp only [loadAll]
          rw [hg]
          show (match pyIter pd with
            | Except.error e0 => Except.error e0
            | Except.ok elems =>
              match loadAll rest with
              | Except.error e0 => Except.error e0
              | Except.ok tl => Except.ok (elems ++ tl)) = Except.error e2
          rw [hi]
        | ok elems =>
          refine ⟨e, ?_⟩
          simp only [loadAll]
          rw [hg]
          show (match pyIter pd with
            | Except.error e0 => Except.error e0
            | Except.ok elems2 =>
              match loadAll rest with
              | Except.error e0 => Except.error e0
              | Except.ok tl => Except.ok (elems2 ++ tl)) = Except.error e
          rw [hi]
          show (match loadAll rest with
            | Except.error e0 => Except.error e0
            | Except.ok tl => Except.ok (elems ++ tl)) = Except.error e
          rw [he]

/-- Helper: a successful fallible map preserves length. -/
theorem mapExcept_length {β γ : Type} (f : β → Except PyErr γ) :
    ∀ (xs : List β) (ys : List γ), mapExcept f xs = .ok ys → ys.length = xs.length := by
  intro xs
  induction xs with
  | nil =>
    intro ys h
    simp only [mapExcept] at h
    cases h
    rfl
  | cons x rest ih =>
    intro ys h
    simp only [mapExcept] at h
    split at h
    · cases h
    · split at h
      · cases h
      · rename_i rs hr
        cases h
        simp [ih rs hr]

end Processor

namespace Processor

/-- Claim C1 (code bug): `process_plugins` accepts the `plugins`-wrapper
shape, but on a snapshot file holding a bare JSON list — the exact shape
`_save_plugins` writes with `json.dump(plugins, f)` — the call
`json_data.get` raises `AttributeError`, the load is aborted by the
surrounding `try`, and no record reaches the transform: the snapshot
format does not round-trip across the pipeline. -/
theorem snapshot_round_trip_broken :
    loadAll [bareSnapshot] = .error .attributeError ∧
    processPlugins fmt0 [bareSnapshot] true true = ⟨none, none, false⟩ ∧
    loadAll [some (PyVal.dict [("plugins", PyVal.list [PyVal.dict [("id", PyVal.int 1)]])])] =
      .ok [PyVal.dict [("id", PyVal.int 1)]] :=
  ⟨rfl, rfl, rfl⟩

/-- Counterexample to claim C3: for the record with `vendor` bound to
`null`, resolution of the path `vendor_name` raises `AttributeError`
(`dict.get` returns the stored `None`, and `None.get` fails) instead of
resolving to the empty string. -/
theorem resolve_vendor_null_cex :
    resolvePath vendorNullRecord "vendor_name" = .error .attributeError ∧
    resolvePath vendorNullRecord "vendor_name" ≠ .ok (PyVal.str "") := by
  refine ⟨rfl, fun hcontra => ?_⟩
  have h2 : (Except.error PyErr.attributeError : Except PyErr PyVal) =
      Except.ok (PyVal.str "") := hcontra
  exact Except.noConfusion h2

/-- Claim C3 (amended): nested-path resolution yields `"Acme"` for
`vendor = {name: Acme}`, and the empty string when `vendor` is an empty
dict or absent; but when `vendor` is present and `null`, resolution
raises `AttributeError` rather than succeeding with `""`. -/
theorem resolve_vendor_cases :
    resolvePath (PyVal.dict [("vendor", PyVal.dict [("name", PyVal.str "Acme")])])
      "vendor_name" = .ok (PyVal.str "Acme") ∧
    resolvePath (PyVal.dict [("vendor", PyVal.dict [])]) "vendor_name" =
      .ok (PyVal.str "") ∧
    resolvePath (PyVal.dict []) "vendor_name" = .ok (PyVal.str "") ∧
    resolvePath vendorNullRecord "vendor_name" = .error .attributeError :=
  ⟨rfl, rfl, rfl, rfl⟩

/-- Counterexample to claim C4: for the raw record `{vendor: null}` — a
key-value mapping — no FlatRecord is produced at all: row building raises
`AttributeError`, and a transform over that record raises with no
output. -/
theorem flatten_vendor_null_cex :
    buildRow fmt0 vendorNullRecord = .error .attributeError ∧
    processPlugins fmt0 [some (PyVal.dict [("plugins", PyVal.list [vendorNullRecord])])]
      true true = ⟨none, none, true⟩ :=
  ⟨rfl, rfl⟩

/-- Claim C4 (amended): whenever row building succeeds on a raw record,
the produced row's key list equals the FieldMap's eight output columns in
order, and every field whose source head key is absent from the record
carries the empty string (never a missing key or a null). -/
theorem buildRow_keys (fmt : Int → String) (kvs : List (String × PyVal))
    (row : List (String × PyVal)) (h : buildRow fmt (PyVal.dict kvs) = .ok row) :
    row.map Prod.fst = outCols ∧
    ∀ fname jpath, (fname, jpath) ∈ fieldsList →
      pyLookup kvs (headKey jpath) = none →
      pyLookup row fname = some (PyVal.str "") := by
  constructor
  · exact buildRowAux_keys fmt (PyVal.dict kvs) fieldsList row h
  · intro fname jpath hmem habs
    exact buildRowAux_absent fmt kvs fieldsList row h (by decide) fname jpath hmem habs

/-- Witness for C4 (amended): the record `{name: X}` flattens to a row
with exactly the eight columns, and its absent `id` field is the empty
string. -/
theorem buildRow_keys_witness :
    rowX.map Prod.fst = outCols ∧ pyLookup rowX "id" = some (PyVal.str "") := by
  have h : buildRow fmt0 recordX = .ok rowX := rfl
  refine ⟨(buildRow_keys fmt0 [("name", PyVal.str "X")] rowX h).1, ?_⟩
  exact (buildRow_keys fmt0 [("name", PyVal.str "X")] rowX h).2 "id" "id"
    (by decide) rfl

/-- Counterexample to claim C5: on the two-separator path `a_b_c`,
resolution does not split on the first separator only (which would resolve
to `"v"` here): the three-way `str.split` makes the tuple unpacking raise
`ValueError`. -/
theorem resolve_multi_sep_cex :
    resolvePath recordAB "a_b_c" = .error .valueError ∧
    resolvePath recordAB "a_b_c" ≠ .ok (PyVal.str "v") := by
  refine ⟨rfl, fun hcontra => ?_⟩
  have h2 : (Except.error PyErr.valueError : Except PyErr PyVal) =
      Except.ok (PyVal.str "v") := hcontra
  exact Except.noConfusion h2

/-- Claim C5 (amended): a source path with exactly one separator splits
into the text before it (parent) and after it (child) and resolution is
the two-level nested lookup; a path with two or more separators instead
raises `ValueError` during unpacking. -/
theorem resolvePath_split_rule (plugin : PyVal) (l1 l2 : List Char)
    (h1 : '_' ∉ l1) :
    ('_' ∉ l2 → resolvePath plugin (String.mk (l1 ++ '_' :: l2)) =
      match pyGetD plugin (String.mk l1) (PyVal.dict []) with
      | .error e => .error e
      | .ok v => pyGetD v (String.mk l2) (PyVal.str "")) ∧
    ('_' ∈ l2 → resolvePath plugin (String.mk (l1 ++ '_' :: l2)) =
      .error .valueError) := by
  have hmem : pyContainsChar '_' (String.mk (l1 ++ '_' :: l2)) = true := by
    apply decide_eq_true
    show '_' ∈ l1 ++ '_' :: l2
    exact List.mem_append.mpr (Or.inr (List.mem_cons_self _ _))
  constructor
  · intro h2
    have hsp : pySplit '_' (String.mk (l1 ++ '_' :: l2)) =
        [String.mk l1, String.mk l2] := by
      unfold pySplit
      show ((splitOnChar '_' (l1 ++ '_' :: l2)).map String.mk) =
        [String.mk l1, String.mk l2]
      rw [splitOnChar_append_first '_' l1 l2 h1, splitOnChar_of_not_mem '_' l2 h2]
      rfl
    unfold resolvePath
    rw [if_pos hmem, hsp]
  · intro h2
    obtain ⟨a, b, t, hsp2⟩ := splitOnChar_mem_two '_' l2 h2
    have hsp : pySplit '_' (String.mk (l1 ++ '_' :: l2)) =
        String.mk l1 :: String.mk a :: String.mk b :: t.map String.mk := by
      unfold pySplit
      show ((splitOnChar '_' (l1 ++ '_' :: l2)).map String.mk) =
        String.mk l1 :: String.mk a :: String.mk b :: t.map String.mk
      rw [splitOnChar_append_first '_' l1 l2 h1, hsp2]
      rfl
    unfold resolvePath
    rw [if_pos hmem, hsp]

/-- Witness for C5 (amended): the one-separator path `a_b` resolves by
the parent/child lookup, and the two-separator path `a_b_c` raises
`ValueError`. -/
theorem resolvePath_split_rule_witness :
    resolvePath recordAB (String.mk ['a', '_', 'b']) =
      (match pyGetD recordAB (String.mk ['a']) (PyVal.dict []) with
       | Except.error e => Except.error e
       | Except.ok v => pyGetD v (String.mk ['b']) (PyVal.str "")) ∧
    resolvePath recordAB (String.mk ['a', '_', 'b', '_', 'c']) =
      .error .valueError := by
  constructor
  · exact (resolvePath_split_rule recordAB ['a'] ['b'] (by decide)).1 (by decide)
  · exact (resolvePath_split_rule recordAB ['a'] ['b', '_', 'c'] (by decide)).2 (by decide)

/-- Counterexample to claim C6: two snapshot files in the exact bare-list
shape the crawler writes, one record each (N = 1), produce a transform
with no output at all (0 records written to either sink), not 2N = 2
concatenated records. -/
theorem concat_bare_snapshots_cex :
    processPlugins fmt0 bareTwo true true = ⟨none, none, false⟩ := rfl

/-- Claim C6 (amended): for wrapper-shaped snapshot files for pages 1 and
2 with N records each, the load concatenates all records, every page-1
record preceding every page-2 record with within-file order preserved,
and the record count is exactly 2N. -/
theorem loadAll_two_wrapped (p1 p2 : List PyVal) (n : Nat)
    (h1 : p1.length = n) (h2 : p2.length = n) :
    loadAll [some (PyVal.dict [("plugins", PyVal.list p1)]),
             some (PyVal.dict [("plugins", PyVal.list p2)])] = .ok (p1 ++ p2) ∧
    (p1 ++ p2).length = 2 * n := by
  constructor
  · have h : loadAll [some (PyVal.dict [("plugins", PyVal.list p1)]),
        some (PyVal.dict [("plugins", PyVal.list p2)])] = .ok (p1 ++ (p2 ++ [])) := rfl
    rw [h, List.append_nil]
  · rw [List.length_append, h1, h2]
    omega

/-- Witness for C6 (amended): two one-record wrapper files concatenate in
order to 2 records. -/
theorem loadAll_two_wrapped_witness :
    loadAll [some (PyVal.dict [("plugins", PyVal.list [PyVal.int 1])]),
             some (PyVal.dict [("plugins", PyVal.list [PyVal.int 2])])] =
      .ok ([PyVal.int 1] ++ [PyVal.int 2]) ∧
    ([PyVal.int 1] ++ [PyVal.int 2]).length = 2 * 1 :=
  loadAll_two_wrapped [PyVal.int 1] [PyVal.int 2] 1 rfl rfl

/-- Claim C7: if decoding any snapshot file fails, `process_plugins`
aborts before producing any output: no CSV file (hence no header row) is
written and no relational rows are inserted, and no exception escapes. -/
theorem processPlugins_decode_abort (fmt : Int → String)
    (files : List (Option PyVal)) (csvOk dbOk : Bool) (h : none ∈ files) :
    processPlugins fmt files csvOk dbOk = ⟨none, none, false⟩ := by
  obtain ⟨e, he⟩ := loadAll_error_of_none files h
  unfold processPlugins
  rw [he]

/-- Witness for C7: a run with one good wrapper file and one undecodable
file produces no output at all. -/
theorem processPlugins_decode_abort_witness :
    processPlugins fmt0 [wrapOne, none] true true = ⟨none, none, false⟩ :=
  processPlugins_decode_abort fmt0 [wrapOne, none] true true
    (List.mem_cons_of_mem wrapOne (List.mem_singleton.mpr rfl))

/-- Counterexample to claim C8: when the relational sink fails, the
failure is not logged-and-handled: the exception escapes
`process_plugins` uncaught (`raised = true`), because the sqlite block
sits outside any `try`.  The CSV output, written first, is complete. -/
theorem sink_db_failure_uncaught_cex :
    processPlugins fmt0 [wrapOne] true false =
      ⟨some (outCols, [emptyRow]), none, true⟩ := rfl

/-- Claim C8 (amended): the sinks are attempted independently and each
receives every row: a CSV failure is caught and the relational write
still receives all rows; a relational failure happens after the complete
CSV write, which keeps the full row count, but it propagates as an
uncaught exception instead of being logged. -/
theorem sink_independence (fmt : Int → String) (files : List (Option PyVal))
    (recs : List PyVal) (rows : List (List (String × PyVal)))
    (dbRows : List (List PyVal))
    (hload : loadAll files = .ok recs)
    (hrows : mapExcept (buildRow fmt) recs = .ok rows)
    (hdb : mapExcept (fun r => mapExcept (pyIndexRow r) outCols) rows = .ok dbRows) :
    processPlugins fmt files false true = ⟨none, some dbRows, false⟩ ∧
    processPlugins fmt files true false = ⟨some (outCols, rows), none, true⟩ ∧
    rows.length = recs.length ∧ dbRows.length = rows.length := by
  refine ⟨?_, ?_, mapExcept_length _ recs rows hrows,
    mapExcept_length _ rows dbRows hdb⟩
  · simp only [processPlugins, hload, hrows, hdb]
    simp
  · simp only [processPlugins, hload, hrows]
    simp

/-- Witness for C8 (amended): with one wrapper file of one record, the
CSV-failure run still inserts the full relational row, and the
relational-failure run still writes the full CSV. -/
theorem sink_independence_witness :
    processPlugins fmt0 [wrapOne] false true = ⟨none, some [dbRow0], false⟩ ∧
    processPlugins fmt0 [wrapOne] true false =
      ⟨some (outCols, [emptyRow]), none, true⟩ := by
  have h := sink_independence fmt0 [wrapOne] [PyVal.dict []] [emptyRow] [dbRow0]
    rfl rfl rfl
  exact ⟨h.1, h.2.1⟩

end Processor
